import Mathlib

/-!
Verification of the `usbd-human-interface-device` HID class engine against its
natural-language specification.

The development shallowly embeds the relevant source code:
* `src/device/keyboard.rs` — `BootKeyboardReport::new`, `NKROBootKeyboardReport::new`,
  `KeyboardLedsReport` (bit packing);
* `src/device/mouse.rs` — `BootMouseReport`, `WheelMouseReport`, the typed
  `write_report` wrappers;
* `src/device/consumer.rs` — `MultipleConsumerReport`, the typed `write_report` wrappers;
* `src/hid_class/mod.rs` — `UsbHidClass::control_out`, `UsbHidClass::control_in`,
  `UsbHidClass::get_descriptor`.

Machine bytes are modelled as `Nat` (with explicit `% 256` / range guards where the
source truncates), `i8` values as `Int` in two's complement at the wire boundary, and
fallible operations as `Option`/`Except`.  Parts of the repository that the claims
depend on but that are not part of the four embedded files (the `Keyboard` usage-page
enum, the raw-interface idle/protocol state, the packed-struct codec) are modelled from
the specification's words; each such definition is marked `Modelled from the spec:` in
its doc comment.
-/

namespace HidSpec

/-! ### Keyboard usage codes -/

/-! Modelled from the spec: the `Keyboard` usage-page enum (`crate::page`, not among
the embedded files).  Each key is identified by its HID usage code, one byte on the
wire (`element_size_bytes = "1"` in the packed report): `0x00 = NoEventIndicated`,
`0x01 = ErrorRollOver`, `0x02 = POSTFail`, `0x03 = ErrorUndefine`, `0x04 = A` …, and
`0xE0..0xE7` the eight modifiers `LeftControl .. RightGUI`.  A key is represented by
its usage code as a `Nat`. -/

/-- Embeds `Keyboard::NoEventIndicated` usage code. -/
def noEventIndicated : Nat := 0x00
/-- Embeds `Keyboard::ErrorRollOver` usage code. -/
def errorRollOver : Nat := 0x01
/-- Embeds `Keyboard::POSTFail` usage code. -/
def postFail : Nat := 0x02
/-- Embeds `Keyboard::ErrorUndefine` usage code. -/
def errorUndefine : Nat := 0x03
/-- Embeds `Keyboard::LeftControl` usage code. -/
def leftControl : Nat := 0xE0
/-- Embeds `Keyboard::RightGUI` usage code. -/
def rightGUI : Nat := 0xE7

/-- The eight modifier keys `LeftControl ..= RightGUI` (usage codes `0xE0 ..= 0xE7`). -/
def isModifier (k : Nat) : Bool := 0xE0 ≤ k && k ≤ 0xE7

/-- The three error sentinels handled by the
`Keyboard::ErrorRollOver | Keyboard::POSTFail | Keyboard::ErrorUndefine` match arm. -/
def isErrorSentinel (k : Nat) : Bool := k = 0x01 || k = 0x02 || k = 0x03

/-! ### `BootKeyboardReport` (src/device/keyboard.rs lines 124-230) -/

/-- The `BootKeyboardReport` packed struct: eight modifier booleans (bits of byte 0)
and the six-slot key array (bytes 2..8, one usage code per byte). -/
structure BootKeyboardReport where
  right_gui : Bool
  right_alt : Bool
  right_shift : Bool
  right_ctrl : Bool
  left_gui : Bool
  left_alt : Bool
  left_shift : Bool
  left_ctrl : Bool
  keys : List Nat
  deriving Repr, DecidableEq

/-- Embeds `BootKeyboardReport::default()`: all modifiers clear, all six key slots
`NoEventIndicated` (0). -/
def BootKeyboardReport.default : BootKeyboardReport :=
  ⟨false, false, false, false, false, false, false, false, List.replicate 6 0⟩

/-- Loop state of `BootKeyboardReport::new`: the report under construction plus the
local variables `error` and `i`. -/
structure BootKbdState where
  report : BootKeyboardReport
  error : Bool
  i : Nat
  deriving Repr, DecidableEq

/-- One iteration of the `for k in keys` loop of `BootKeyboardReport::new`
(src/device/keyboard.rs lines 178-227), matching on the key `k`. -/
def bootKbdStep (st : BootKbdState) (k : Nat) : BootKbdState :=
  if k = 0xE0 then { st with report.left_ctrl := true }
  else if k = 0xE1 then { st with report.left_shift := true }
  else if k = 0xE2 then { st with report.left_alt := true }
  else if k = 0xE3 then { st with report.left_gui := true }
  else if k = 0xE4 then { st with report.right_ctrl := true }
  else if k = 0xE5 then { st with report.right_shift := true }
  else if k = 0xE6 then { st with report.right_alt := true }
  else if k = 0xE7 then { st with report.right_gui := true }
  else if k = 0x00 then st
  else if isErrorSentinel k then
    if !st.error then
      { report := { st.report with keys := List.replicate 6 k }, error := true, i := 6 }
    else st
  else
    if st.error then st
    else if st.i < 6 then
      { st with report.keys := st.report.keys.set st.i k, i := st.i + 1 }
    else
      { report := { st.report with keys := List.replicate 6 errorRollOver },
        error := true, i := 6 }

/-- Embeds `BootKeyboardReport::new`: fold the loop body over the input key sequence starting
from the default report with `error = false`, `i = 0`. -/
def BootKeyboardReport.new (ks : List Nat) : BootKeyboardReport :=
  (ks.foldl bootKbdStep ⟨BootKeyboardReport.default, false, 0⟩).report

/-- The `(keys, error, i)` components of the loop state: everything the loop body
reads or writes apart from the modifier booleans. -/
def bootKbdProj (st : BootKbdState) : List Nat × Bool × Nat :=
  (st.report.keys, st.error, st.i)

/-- Action of the loop body of `BootKeyboardReport::new` on the `(keys, error, i)`
components alone (the modifier arms leave them unchanged). -/
def bootKeysStep : List Nat × Bool × Nat → Nat → List Nat × Bool × Nat
  | (keys, error, i), k =>
    if isModifier k || k = 0x00 then (keys, error, i)
    else if isErrorSentinel k then
      if !error then (List.replicate 6 k, true, 6) else (keys, error, i)
    else if error then (keys, error, i)
    else if i < 6 then (keys.set i k, false, i + 1)
    else (List.replicate 6 errorRollOver, true, 6)

lemma bootKbdStep_proj (st : BootKbdState) (k : Nat) :
    bootKbdProj (bootKbdStep st k) = bootKeysStep (bootKbdProj st) k := by
  rcases st with ⟨⟨rg, ra, rs, rc, lg, la, ls, lc, keys⟩, err, i⟩
  by_cases hm : isModifier k = true
  · have hb : 0xE0 ≤ k ∧ k ≤ 0xE7 := by simpa [isModifier] using hm
    obtain ⟨h1, h2⟩ := hb
    interval_cases k <;> rfl
  · have h224 : k ≠ 0xE0 := by intro h; subst h; exact hm (by decide)
    have h225 : k ≠ 0xE1 := by intro h; subst h; exact hm (by decide)
    have h226 : k ≠ 0xE2 := by intro h; subst h; exact hm (by decide)
    have h227 : k ≠ 0xE3 := by intro h; subst h; exact hm (by decide)
    have h228 : k ≠ 0xE4 := by intro h; subst h; exact hm (by decide)
    have h229 : k ≠ 0xE5 := by intro h; subst h; exact hm (by decide)
    have h230 : k ≠ 0xE6 := by intro h; subst h; exact hm (by decide)
    have h231 : k ≠ 0xE7 := by intro h; subst h; exact hm (by decide)
    by_cases hz : k = 0x00
    · subst hz; rfl
    · by_cases hs : isErrorSentinel k = true
      · have hb : k = 1 ∨ k = 2 ∨ k = 3 := by
          have := hs
          simp only [isErrorSentinel, Bool.or_eq_true, decide_eq_true_eq] at this
          tauto
        rcases hb with h | h | h <;> subst h <;> cases err <;> rfl
      · simp only [bootKbdStep, bootKeysStep, bootKbdProj]
        rw [if_neg h224, if_neg h225, if_neg h226, if_neg h227,
          if_neg h228, if_neg h229, if_neg h230, if_neg h231,
          if_neg hz, if_neg hs]
        rw [show (isModifier k || decide (k = 0x00)) = false by simp [hm, hz]]
        simp only [Bool.false_eq_true, if_false, if_neg hs]
        cases err
        · by_cases hi : i < 6 <;> simp [hi]
        · rfl

lemma bootKbd_foldl_proj (ks : List Nat) (st : BootKbdState) :
    bootKbdProj (ks.foldl bootKbdStep st) = ks.foldl bootKeysStep (bootKbdProj st) := by
  induction ks generalizing st with
  | nil => rfl
  | cons k ks ih => simp only [List.foldl_cons, ih, bootKbdStep_proj]

/-- The key array of `BootKeyboardReport::new` is the first component of the
`bootKeysStep` fold. -/
lemma BootKeyboardReport.new_keys (ks : List Nat) :
    (BootKeyboardReport.new ks).keys =
      (ks.foldl bootKeysStep (List.replicate 6 0, false, 0)).1 := by
  have h := bootKbd_foldl_proj ks ⟨BootKeyboardReport.default, false, 0⟩
  simpa [BootKeyboardReport.new, bootKbdProj, BootKeyboardReport.default] using
    congrArg Prod.fst h

/-- Once the loop's `error` flag is set, neither the key array nor the flag ever
changes again. -/
lemma bootKeysStep_foldl_error (ks : List Nat) (keys : List Nat) (i : Nat) :
    ks.foldl bootKeysStep (keys, true, i) = (keys, true, i) := by
  induction ks generalizing keys i with
  | nil => rfl
  | cons k ks ih =>
      simp only [List.foldl_cons]
      have hstep : bootKeysStep (keys, true, i) k = (keys, true, i) := by
        simp only [bootKeysStep]
        split_ifs <;> simp_all
      rw [hstep, ih]

/-- The keys counted by the rollover limit: neither a modifier nor
`NoEventIndicated`.  (Error sentinels are counted; the claims under examination
count them as well.) -/
def countedKey (k : Nat) : Bool := !isModifier k && k ≠ 0x00

/-- If the `error` flag is still clear but more counted keys remain than the six
slots minus the slots already used, the loop ends with every slot
`ErrorRollOver` — provided no `POSTFail`/`ErrorUndefine` sentinel appears. -/
lemma bootKeysStep_foldl_overflow (ks : List Nat) (keys : List Nat) (i : Nat)
    (hno : ∀ k ∈ ks, k ≠ postFail ∧ k ≠ errorUndefine)
    (hi : i ≤ 6) (hcount : 6 < i + (ks.filter countedKey).length) :
    ks.foldl bootKeysStep (keys, false, i) =
      (List.replicate 6 errorRollOver, true, 6) := by
  induction ks generalizing keys i with
  | nil => simp at hcount; omega
  | cons k ks ih =>
      have hk2 : k ≠ postFail := (hno k (List.mem_cons_self _ _)).1
      have hk3 : k ≠ errorUndefine := (hno k (List.mem_cons_self _ _)).2
      have hno' : ∀ k ∈ ks, k ≠ postFail ∧ k ≠ errorUndefine :=
        fun k hk => hno k (List.mem_cons_of_mem _ hk)
      simp only [List.foldl_cons]
      by_cases hmod : (isModifier k || k = 0x00) = true
      · have hstep : bootKeysStep (keys, false, i) k = (keys, false, i) := by
          simp [bootKeysStep, hmod]
        have hfilter : (k :: ks).filter countedKey = ks.filter countedKey := by
          rcases Bool.or_eq_true_iff.mp hmod with h | h
          · simp [List.filter_cons, countedKey, h]
          · simp [List.filter_cons, countedKey, by simpa using h]
        rw [hstep]
        exact ih keys i hno' hi (by rw [hfilter] at hcount; exact hcount)
      · by_cases hsent : isErrorSentinel k = true
        · have hk1 : k = errorRollOver := by
            simp only [isErrorSentinel, postFail, errorUndefine, errorRollOver] at *
            rcases Bool.or_eq_true_iff.mp hsent with h | h
            · rcases Bool.or_eq_true_iff.mp h with h' | h'
              · exact Nat.eq_of_beq_eq_true (by simpa using h')
              · exact absurd (Nat.eq_of_beq_eq_true (by simpa using h')) hk2
            · exact absurd (Nat.eq_of_beq_eq_true (by simpa using h)) hk3
          have hstep : bootKeysStep (keys, false, i) k =
              (List.replicate 6 errorRollOver, true, 6) := by
            subst hk1
            simp [bootKeysStep, isModifier, isErrorSentinel, errorRollOver]
          rw [hstep, bootKeysStep_foldl_error]
        · have hcounted : countedKey k = true := by
            simp only [countedKey, isErrorSentinel] at *
            simp_all
          by_cases hlt : i < 6
          · have hstep : bootKeysStep (keys, false, i) k = (keys.set i k, false, i + 1) := by
              simp [bootKeysStep, hmod, hsent, hlt]
            have hfilter : ((k :: ks).filter countedKey).length =
                (ks.filter countedKey).length + 1 := by
              simp [List.filter_cons, hcounted]
            rw [hstep]
            exact ih (keys.set i k) (i + 1) hno' (by omega) (by omega)
          · have hstep : bootKeysStep (keys, false, i) k =
                (List.replicate 6 errorRollOver, true, 6) := by
              simp [bootKeysStep, hmod, hsent, hlt]
            rw [hstep, bootKeysStep_foldl_error]

/-- One loop iteration ORs each modifier flag with the test "this key is that
modifier" and never clears a modifier flag. -/
lemma bootKbdStep_modifiers (st : BootKbdState) (k : Nat) :
    (bootKbdStep st k).report.left_ctrl = (st.report.left_ctrl || (k == 0xE0)) ∧
    (bootKbdStep st k).report.left_shift = (st.report.left_shift || (k == 0xE1)) ∧
    (bootKbdStep st k).report.left_alt = (st.report.left_alt || (k == 0xE2)) ∧
    (bootKbdStep st k).report.left_gui = (st.report.left_gui || (k == 0xE3)) ∧
    (bootKbdStep st k).report.right_ctrl = (st.report.right_ctrl || (k == 0xE4)) ∧
    (bootKbdStep st k).report.right_shift = (st.report.right_shift || (k == 0xE5)) ∧
    (bootKbdStep st k).report.right_alt = (st.report.right_alt || (k == 0xE6)) ∧
    (bootKbdStep st k).report.right_gui = (st.report.right_gui || (k == 0xE7)) := by
  by_cases hm : isModifier k = true
  · have hb : 0xE0 ≤ k ∧ k ≤ 0xE7 := by simpa [isModifier] using hm
    obtain ⟨h1, h2⟩ := hb
    interval_cases k <;> simp [bootKbdStep]
  · have h224 : k ≠ 0xE0 := by intro h; subst h; exact hm (by decide)
    have h225 : k ≠ 0xE1 := by intro h; subst h; exact hm (by decide)
    have h226 : k ≠ 0xE2 := by intro h; subst h; exact hm (by decide)
    have h227 : k ≠ 0xE3 := by intro h; subst h; exact hm (by decide)
    have h228 : k ≠ 0xE4 := by intro h; subst h; exact hm (by decide)
    have h229 : k ≠ 0xE5 := by intro h; subst h; exact hm (by decide)
    have h230 : k ≠ 0xE6 := by intro h; subst h; exact hm (by decide)
    have h231 : k ≠ 0xE7 := by intro h; subst h; exact hm (by decide)
    by_cases hz : k = 0x00
    · subst hz; simp [bootKbdStep]
    · by_cases hs : isErrorSentinel k = true
      · have hb : k = 1 ∨ k = 2 ∨ k = 3 := by
          have := hs
          simp only [isErrorSentinel, Bool.or_eq_true, decide_eq_true_eq] at this
          tauto
        rcases hb with h | h | h <;> subst h <;>
          (simp only [bootKbdStep]; split_ifs <;> simp_all)
      · simp only [bootKbdStep]
        rw [if_neg h224, if_neg h225, if_neg h226, if_neg h227,
          if_neg h228, if_neg h229, if_neg h230, if_neg h231,
          if_neg hz, if_neg hs]
        rw [show (k == 0xE0) = false by simp [h224],
          show (k == 0xE1) = false by simp [h225],
          show (k == 0xE2) = false by simp [h226],
          show (k == 0xE3) = false by simp [h227],
          show (k == 0xE4) = false by simp [h228],
          show (k == 0xE5) = false by simp [h229],
          show (k == 0xE6) = false by simp [h230],
          show (k == 0xE7) = false by simp [h231]]
        split_ifs <;> simp

/-- Folding the loop over a key list ORs each modifier flag with membership of the
corresponding modifier key in the list. -/
lemma bootKbd_foldl_modifier_bit (f : BootKbdState → Bool) (v : Nat)
    (hf : ∀ st k, f (bootKbdStep st k) = (f st || (k == v)))
    (ks : List Nat) (st : BootKbdState) :
    f (ks.foldl bootKbdStep st) = (f st || ks.any (· == v)) := by
  induction ks generalizing st with
  | nil => simp
  | cons k ks ih =>
      simp only [List.foldl_cons, ih, hf, List.any_cons, Bool.or_assoc]

/-- Keys dropped by the `countedKey` filter (modifiers and `NoEventIndicated`) leave
the `(keys, error, i)` loop state unchanged, so filtering them out does not change
the `bootKeysStep` fold. -/
lemma bootKeysStep_foldl_filter (ks : List Nat) (t : List Nat × Bool × Nat) :
    (ks.filter countedKey).foldl bootKeysStep t = ks.foldl bootKeysStep t := by
  induction ks generalizing t with
  | nil => rfl
  | cons k ks ih =>
      by_cases hc : countedKey k = true
      · rw [List.filter_cons, if_pos hc, List.foldl_cons, List.foldl_cons, ih]
      · have hdrop : (isModifier k || decide (k = 0x00)) = true := by
          by_cases hmk : isModifier k = true
          · simp [hmk]
          · have hmf : isModifier k = false := by
              cases hmb : isModifier k
              · rfl
              · exact absurd hmb hmk
            have hk0 : k = 0 := by
              by_contra hne
              exact hc (by simp [countedKey, hmf, hne])
            simp [hk0]
        have hid : bootKeysStep t k = t := by
          rcases t with ⟨keys, err, i⟩
          simp [bootKeysStep, hdrop]
        rw [List.filter_cons, if_neg hc, ih, List.foldl_cons, hid]

/-! ### Claims C1 and C10 -/

/-- Claim C1, counterexample: the input `[POSTFail, A, B, C, D, E, F]` contains 7
non-modifier, non-`NoEventIndicated` keys, yet `BootKeyboardReport::new` fills every
key slot with `POSTFail` (0x02), not `ErrorRollOver` (0x01): the
`ErrorRollOver | POSTFail | ErrorUndefine` match arm fills the array with the
sentinel that was encountered, so the claim as stated is false. -/
theorem boot_rollover_postfail_counterexample :
    6 < (([postFail, 4, 5, 6, 7, 8, 9] : List Nat).filter countedKey).length ∧
    (BootKeyboardReport.new [postFail, 4, 5, 6, 7, 8, 9]).keys ≠
      List.replicate 6 errorRollOver ∧
    (BootKeyboardReport.new [postFail, 4, 5, 6, 7, 8, 9]).keys =
      List.replicate 6 postFail := by decide

/-- Claim C1, amended: for every input key sequence containing no `POSTFail` and no
`ErrorUndefine` sentinel and more than 6 non-modifier, non-`NoEventIndicated` keys,
the resulting boot report's 6-element keys array has every slot equal to
`Keyboard::ErrorRollOver` (no silent truncation to the first 6 keys). -/
theorem boot_rollover_all_slots_error_roll_over (ks : List Nat)
    (hno : ∀ k ∈ ks, k ≠ postFail ∧ k ≠ errorUndefine)
    (hcount : 6 < (ks.filter countedKey).length) :
    (BootKeyboardReport.new ks).keys = List.replicate 6 errorRollOver := by
  rw [BootKeyboardReport.new_keys,
    bootKeysStep_foldl_overflow ks (List.replicate 6 0) 0 hno (by omega) (by omega)]

/-- Witness for `boot_rollover_all_slots_error_roll_over` at the concrete input
`[A, B, C, D, E, F, G]`. -/
theorem boot_rollover_all_slots_error_roll_over_witness :
    (∀ k ∈ ([4, 5, 6, 7, 8, 9, 10] : List Nat), k ≠ postFail ∧ k ≠ errorUndefine) ∧
    6 < (([4, 5, 6, 7, 8, 9, 10] : List Nat).filter countedKey).length ∧
    (BootKeyboardReport.new [4, 5, 6, 7, 8, 9, 10]).keys =
      List.replicate 6 errorRollOver :=
  ⟨by decide, by decide,
    boot_rollover_all_slots_error_roll_over [4, 5, 6, 7, 8, 9, 10] (by decide) (by decide)⟩

/-- Claim C10: for every input key sequence given to `BootKeyboardReport::new`,
(i) each of the eight modifier booleans is set exactly when the corresponding
modifier key (`LeftControl` 0xE0 … `RightGUI` 0xE7) occurs in the input — in
particular the modifier bits are set even when the key array is in an overflow
state, since (i) holds unconditionally —, and (ii) the 6-element keys array is
exactly the one obtained from the input with all modifiers and all
`NoEventIndicated` entries removed: modifiers never occupy a key slot and do not
count toward the 6-slot rollover limit, and `NoEventIndicated` inputs are ignored. -/
theorem boot_modifiers_only_set_modifier_fields (ks : List Nat) :
    ((BootKeyboardReport.new ks).left_ctrl = ks.any (· == 0xE0)) ∧
    ((BootKeyboardReport.new ks).left_shift = ks.any (· == 0xE1)) ∧
    ((BootKeyboardReport.new ks).left_alt = ks.any (· == 0xE2)) ∧
    ((BootKeyboardReport.new ks).left_gui = ks.any (· == 0xE3)) ∧
    ((BootKeyboardReport.new ks).right_ctrl = ks.any (· == 0xE4)) ∧
    ((BootKeyboardReport.new ks).right_shift = ks.any (· == 0xE5)) ∧
    ((BootKeyboardReport.new ks).right_alt = ks.any (· == 0xE6)) ∧
    ((BootKeyboardReport.new ks).right_gui = ks.any (· == 0xE7)) ∧
    (BootKeyboardReport.new ks).keys =
      (BootKeyboardReport.new (ks.filter countedKey)).keys := by
  refine ⟨?_, ?_, ?_, ?_, ?_, ?_, ?_, ?_, ?_⟩
  · simpa [BootKeyboardReport.new, BootKeyboardReport.default] using
      bootKbd_foldl_modifier_bit (fun st => st.report.left_ctrl) 0xE0
        (fun st k => (bootKbdStep_modifiers st k).1) ks
        ⟨BootKeyboardReport.default, false, 0⟩
  · simpa [BootKeyboardReport.new, BootKeyboardReport.default] using
      bootKbd_foldl_modifier_bit (fun st => st.report.left_shift) 0xE1
        (fun st k => (bootKbdStep_modifiers st k).2.1) ks
        ⟨BootKeyboardReport.default, false, 0⟩
  · simpa [BootKeyboardReport.new, BootKeyboardReport.default] using
      bootKbd_foldl_modifier_bit (fun st => st.report.left_alt) 0xE2
        (fun st k => (bootKbdStep_modifiers st k).2.2.1) ks
        ⟨BootKeyboardReport.default, false, 0⟩
  · simpa [BootKeyboardReport.new, BootKeyboardReport.default] using
      bootKbd_foldl_modifier_bit (fun st => st.report.left_gui) 0xE3
        (fun st k => (bootKbdStep_modifiers st k).2.2.2.1) ks
        ⟨BootKeyboardReport.default, false, 0⟩
  · simpa [BootKeyboardReport.new, BootKeyboardReport.default] using
      bootKbd_foldl_modifier_bit (fun st => st.report.right_ctrl) 0xE4
        (fun st k => (bootKbdStep_modifiers st k).2.2.2.2.1) ks
        ⟨BootKeyboardReport.default, false, 0⟩
  · simpa [BootKeyboardReport.new, BootKeyboardReport.default] using
      bootKbd_foldl_modifier_bit (fun st => st.report.right_shift) 0xE5
        (fun st k => (bootKbdStep_modifiers st k).2.2.2.2.2.1) ks
        ⟨BootKeyboardReport.default, false, 0⟩
  · simpa [BootKeyboardReport.new, BootKeyboardReport.default] using
      bootKbd_foldl_modifier_bit (fun st => st.report.right_alt) 0xE6
        (fun st k => (bootKbdStep_modifiers st k).2.2.2.2.2.2.1) ks
        ⟨BootKeyboardReport.default, false, 0⟩
  · simpa [BootKeyboardReport.new, BootKeyboardReport.default] using
      bootKbd_foldl_modifier_bit (fun st => st.report.right_gui) 0xE7
        (fun st k => (bootKbdStep_modifiers st k).2.2.2.2.2.2.2) ks
        ⟨BootKeyboardReport.default, false, 0⟩
  · rw [BootKeyboardReport.new_keys, BootKeyboardReport.new_keys,
      bootKeysStep_foldl_filter]

/-! ### `NKROBootKeyboardReport` (src/device/keyboard.rs lines 324-449) -/

/-- The `NKROBootKeyboardReport` packed struct: eight modifier booleans, the six-slot
boot-compatible key array (bytes 2..8) and the 17-byte NKRO key bitmap
(bytes 8..25). -/
structure NKROBootKeyboardReport where
  right_gui : Bool
  right_alt : Bool
  right_shift : Bool
  right_ctrl : Bool
  left_gui : Bool
  left_alt : Bool
  left_shift : Bool
  left_ctrl : Bool
  boot_keys : List Nat
  nkro_keys : List Nat
  deriving Repr, DecidableEq

/-- Embeds `NKROBootKeyboardReport::default()`: all modifiers clear, six `NoEventIndicated`
boot slots, 17 zero bitmap bytes. -/
def NKROBootKeyboardReport.default : NKROBootKeyboardReport :=
  ⟨false, false, false, false, false, false, false, false,
    List.replicate 6 0, List.replicate 17 0⟩

/-- Embeds the statement `bytes[idx] |= 1 << bit` on the bitmap byte list. -/
def orBitAt (bytes : List Nat) (idx bit : Nat) : List Nat :=
  bytes.set idx (bytes.getD idx 0 ||| 1 <<< bit)

/-- Loop state of `NKROBootKeyboardReport::new`: the report under construction plus
the local variables `boot_keys_error` and `i`. -/
structure NKROKbdState where
  report : NKROBootKeyboardReport
  boot_keys_error : Bool
  i : Nat
  deriving Repr, DecidableEq

/-- One iteration of the `for k in keys` loop of `NKROBootKeyboardReport::new`
(src/device/keyboard.rs lines 389-446).  The sentinel arm sets
`nkro_keys[0] |= 1 << k`; the catch-all arm sets `nkro_keys[k/8] |= 1 << (k%8)`
only when `k < 17*8`, then runs the same six-slot boot-array logic as the boot
keyboard report. -/
def nkroKbdStep (st : NKROKbdState) (k : Nat) : NKROKbdState :=
  if k = 0xE0 then { st with report.left_ctrl := true }
  else if k = 0xE1 then { st with report.left_shift := true }
  else if k = 0xE2 then { st with report.left_alt := true }
  else if k = 0xE3 then { st with report.left_gui := true }
  else if k = 0xE4 then { st with report.right_ctrl := true }
  else if k = 0xE5 then { st with report.right_shift := true }
  else if k = 0xE6 then { st with report.right_alt := true }
  else if k = 0xE7 then { st with report.right_gui := true }
  else if k = 0x00 then st
  else if isErrorSentinel k then
    let r1 := { st.report with nkro_keys := orBitAt st.report.nkro_keys 0 (k % 256) }
    if !st.boot_keys_error then
      { report := { r1 with boot_keys := List.replicate 6 k }, boot_keys_error := true,
        i := 6 }
    else { st with report := r1 }
  else
    let r1 :=
      if k < 17 * 8 then
        { st.report with nkro_keys := orBitAt st.report.nkro_keys (k / 8) (k % 8) }
      else st.report
    if st.boot_keys_error then { st with report := r1 }
    else if st.i < 6 then
      { report := { r1 with boot_keys := r1.boot_keys.set st.i k },
        boot_keys_error := false, i := st.i + 1 }
    else
      { report := { r1 with boot_keys := List.replicate 6 errorRollOver },
        boot_keys_error := true, i := 6 }

/-- Embeds `NKROBootKeyboardReport::new`: fold the loop body over the input key sequence. -/
def NKROBootKeyboardReport.new (ks : List Nat) : NKROBootKeyboardReport :=
  (ks.foldl nkroKbdStep ⟨NKROBootKeyboardReport.default, false, 0⟩).report

/-- Whether key `k` is marked pressed in the NKRO bitmap: bit `k % 8` of bitmap byte
`k / 8`. -/
def nkroBitSet (r : NKROBootKeyboardReport) (k : Nat) : Bool :=
  (r.nkro_keys.getD (k / 8) 0).testBit (k % 8)

/-- Action of the loop body on the `nkro_keys` bitmap alone (it does not depend on
`boot_keys_error` or `i`). -/
def nkroBytesStep (bytes : List Nat) (k : Nat) : List Nat :=
  if isModifier k || k = 0x00 then bytes
  else if isErrorSentinel k then orBitAt bytes 0 (k % 256)
  else if k < 17 * 8 then orBitAt bytes (k / 8) (k % 8)
  else bytes

lemma nkroKbdStep_nkro (st : NKROKbdState) (k : Nat) :
    (nkroKbdStep st k).report.nkro_keys = nkroBytesStep st.report.nkro_keys k := by
  by_cases hm : isModifier k = true
  · have hb : 0xE0 ≤ k ∧ k ≤ 0xE7 := by simpa [isModifier] using hm
    obtain ⟨h1, h2⟩ := hb
    interval_cases k <;> simp [nkroKbdStep, nkroBytesStep, isModifier, isErrorSentinel]
  · have h224 : k ≠ 0xE0 := by intro h; subst h; exact hm (by decide)
    have h225 : k ≠ 0xE1 := by intro h; subst h; exact hm (by decide)
    have h226 : k ≠ 0xE2 := by intro h; subst h; exact hm (by decide)
    have h227 : k ≠ 0xE3 := by intro h; subst h; exact hm (by decide)
    have h228 : k ≠ 0xE4 := by intro h; subst h; exact hm (by decide)
    have h229 : k ≠ 0xE5 := by intro h; subst h; exact hm (by decide)
    have h230 : k ≠ 0xE6 := by intro h; subst h; exact hm (by decide)
    have h231 : k ≠ 0xE7 := by intro h; subst h; exact hm (by decide)
    by_cases hz : k = 0x00
    · subst hz; rfl
    · by_cases hs : isErrorSentinel k = true
      · cases herr : st.boot_keys_error <;>
          simp [nkroKbdStep, nkroBytesStep, h224, h225, h226, h227, h228, h229,
            h230, h231, hz, hs, hm, herr]
      · cases herr : st.boot_keys_error <;> by_cases hi : st.i < 6 <;>
          by_cases hlt : k < 17 * 8 <;>
          simp [nkroKbdStep, nkroBytesStep, h224, h225, h226, h227, h228, h229,
            h230, h231, hz, hs, hm, herr, hi, hlt]

lemma nkro_foldl_nkro (ks : List Nat) (st : NKROKbdState) :
    (ks.foldl nkroKbdStep st).report.nkro_keys =
      ks.foldl nkroBytesStep st.report.nkro_keys := by
  induction ks generalizing st with
  | nil => rfl
  | cons k ks ih => simp only [List.foldl_cons, ih, nkroKbdStep_nkro]

/-- Whether key `k` is marked in a bitmap byte list: bit `k % 8` of byte `k / 8`. -/
def bytesBit (bytes : List Nat) (k : Nat) : Bool :=
  (bytes.getD (k / 8) 0).testBit (k % 8)

lemma nkroBitSet_eq_bytesBit (r : NKROBootKeyboardReport) (k : Nat) :
    nkroBitSet r k = bytesBit r.nkro_keys k := rfl

lemma orBitAt_length (bytes : List Nat) (idx bit : Nat) :
    (orBitAt bytes idx bit).length = bytes.length := by
  simp [orBitAt]

lemma nkroBytesStep_length (bytes : List Nat) (k : Nat) :
    (nkroBytesStep bytes k).length = bytes.length := by
  simp only [nkroBytesStep]
  split_ifs <;> simp [orBitAt_length]

lemma getD_set_self (l : List Nat) (i v : Nat) (h : i < l.length) :
    (l.set i v).getD i 0 = v := by
  simp [List.getD, List.getElem?_set, h]

lemma getD_set_ne (l : List Nat) (i j v : Nat) (h : i ≠ j) :
    (l.set i v).getD j 0 = l.getD j 0 := by
  simp [List.getD, List.getElem?_set, h]

/-- The operation `|=` never clears a bitmap bit. -/
lemma bytesBit_orBitAt_mono (bytes : List Nat) (idx bit : Nat) (j : Nat)
    (h : bytesBit bytes j = true) : bytesBit (orBitAt bytes idx bit) j = true := by
  by_cases hij : idx = j / 8
  · by_cases hlen : idx < bytes.length
    · subst hij
      simp only [bytesBit] at h
      rw [bytesBit, orBitAt, getD_set_self _ _ _ hlen, Nat.testBit_lor, Bool.or_eq_true]
      exact Or.inl h
    · simp only [bytesBit, orBitAt] at h ⊢
      rw [List.set_eq_of_length_le (by omega)]
      exact h
  · simp only [bytesBit, orBitAt, getD_set_ne _ _ _ _ hij]
    exact h

/-- A loop iteration never clears a bitmap bit. -/
lemma bytesBit_nkroBytesStep_mono (bytes : List Nat) (k : Nat) (j : Nat)
    (h : bytesBit bytes j = true) : bytesBit (nkroBytesStep bytes k) j = true := by
  simp only [nkroBytesStep]
  split_ifs <;> first | exact h | exact bytesBit_orBitAt_mono _ _ _ _ h

lemma bytesBit_foldl_mono (ks : List Nat) (bytes : List Nat) (j : Nat)
    (h : bytesBit bytes j = true) :
    bytesBit (ks.foldl nkroBytesStep bytes) j = true := by
  induction ks generalizing bytes with
  | nil => exact h
  | cons k ks ih =>
      exact ih (nkroBytesStep bytes k) (bytesBit_nkroBytesStep_mono bytes k j h)

/-- Processing a non-modifier, non-`NoEventIndicated` key whose usage code is below
`17 * 8` sets its bitmap bit. -/
lemma bytesBit_nkroBytesStep_self (bytes : List Nat) (k : Nat)
    (hlen : bytes.length = 17) (hm : isModifier k = false) (hz : k ≠ 0)
    (hlt : k < 17 * 8) : bytesBit (nkroBytesStep bytes k) k = true := by
  have hbit : ∀ idx bit, idx = k / 8 → bit = k % 8 → idx < bytes.length →
      bytesBit (orBitAt bytes idx bit) k = true := by
    intro idx bit hidx hbit hb
    subst hidx; subst hbit
    simp only [bytesBit, orBitAt, getD_set_self _ _ _ hb, Nat.testBit_lor]
    have : ((1 : Nat) <<< (k % 8)).testBit (k % 8) = true := by
      rw [Nat.shiftLeft_eq, one_mul]
      exact Nat.testBit_two_pow_self
    simp [this]
  by_cases hs : isErrorSentinel k = true
  · have hb : k = 1 ∨ k = 2 ∨ k = 3 := by
      have := hs
      simp only [isErrorSentinel, Bool.or_eq_true, decide_eq_true_eq] at this
      tauto
    have hstep : nkroBytesStep bytes k = orBitAt bytes 0 (k % 256) := by
      simp [nkroBytesStep, hm, hz, hs]
    rw [hstep]
    rcases hb with h | h | h <;> subst h <;> exact hbit _ _ (by omega) (by omega) (by omega)
  · have hstep : nkroBytesStep bytes k = orBitAt bytes (k / 8) (k % 8) := by
      simp [nkroBytesStep, hm, hz, hs, hlt]
    rw [hstep]
    exact hbit _ _ rfl rfl (by omega)

lemma nkroBytesStep_foldl_length (ks : List Nat) (bytes : List Nat) :
    (ks.foldl nkroBytesStep bytes).length = bytes.length := by
  induction ks generalizing bytes with
  | nil => rfl
  | cons k ks ih => rw [List.foldl_cons, ih, nkroBytesStep_length]

lemma bytesBit_foldl_self (ks : List Nat) (bytes : List Nat) (k : Nat)
    (hk : k ∈ ks) (hlen : bytes.length = 17) (hm : isModifier k = false)
    (hz : k ≠ 0) (hlt : k < 17 * 8) :
    bytesBit (ks.foldl nkroBytesStep bytes) k = true := by
  induction ks generalizing bytes with
  | nil => cases hk
  | cons a ks ih =>
      rw [List.foldl_cons]
      rcases List.mem_cons.mp hk with h | h
      · subst h
        exact bytesBit_foldl_mono ks _ k
          (bytesBit_nkroBytesStep_self bytes k hlen hm hz hlt)
      · exact ih _ h (by rw [nkroBytesStep_length]; exact hlen)

/-! ### Claim C2 -/

/-- Claim C2, counterexample: the key with usage code `0x88` (= 136, e.g.
`Keyboard::International2`) is a non-modifier, non-`NoEventIndicated` key; feeding
`[0x88]` to `NKROBootKeyboardReport::new` records it in the boot key array, yet its
bit is not set in the `nkro_keys` bitmap: the bitmap write is guarded by
`(k as usize) < nkro_keys.len() * 8`, i.e. `k < 136`, so the two representations do
not agree on the pressed-key set. -/
theorem nkro_bitmap_misses_high_keycode_counterexample :
    countedKey 0x88 = true ∧
    (NKROBootKeyboardReport.new [0x88]).boot_keys = [0x88, 0, 0, 0, 0, 0] ∧
    nkroBitSet (NKROBootKeyboardReport.new [0x88]) 0x88 = false := by decide

/-- Claim C2, amended: for every input key sequence given to
`NKROBootKeyboardReport::new`, every non-modifier, non-`NoEventIndicated` key in the
input whose usage code is below `17 * 8 = 136` (the bitmap's capacity) has its bit
set in the `nkro_keys` bitmap — and this holds unconditionally, in particular
regardless of whether the 6-slot boot array has overflowed into the
`ErrorRollOver` state.  Keys with usage codes `≥ 136` are recorded only in the boot
slot array. -/
theorem nkro_bitmap_reflects_pressed_keys (ks : List Nat) (k : Nat)
    (hk : k ∈ ks) (hm : isModifier k = false) (hz : k ≠ 0) (hlt : k < 17 * 8) :
    nkroBitSet (NKROBootKeyboardReport.new ks) k = true := by
  rw [NKROBootKeyboardReport.new, nkroBitSet_eq_bytesBit, nkro_foldl_nkro]
  exact bytesBit_foldl_self ks _ k hk (by simp [NKROBootKeyboardReport.default]) hm hz hlt

/-- Witness for `nkro_bitmap_reflects_pressed_keys`: with nine keys pressed (boot
array overflowed), the bit of key `A` (0x04) is still set in the bitmap. -/
theorem nkro_bitmap_reflects_pressed_keys_witness :
    (4 : Nat) ∈ ([4, 5, 6, 7, 8, 9, 10, 11, 12] : List Nat) ∧
    isModifier 4 = false ∧ (4 : Nat) ≠ 0 ∧ (4 : Nat) < 17 * 8 ∧
    nkroBitSet (NKROBootKeyboardReport.new [4, 5, 6, 7, 8, 9, 10, 11, 12]) 4 = true :=
  ⟨by decide, by decide, by decide, by decide,
    nkro_bitmap_reflects_pressed_keys [4, 5, 6, 7, 8, 9, 10, 11, 12] 4
      (by decide) (by decide) (by decide) (by decide)⟩

/-! ### Report codec (packed_struct derive, spec §4.1)

The byte-level `pack`/`unpack` pairs are generated by the external `packed_struct`
derive; the codec contract is taken from the spec: encode fails with a
serialization error iff a field value exceeds its declared bit width, decode fails
with a parse error iff the buffer length mismatches the declared size or a value
falls outside its legal range. -/

/-- Modelled from the spec: the error returned by the packed-struct encoder when a
field value exceeds its declared bit width. -/
inductive PackingError
  | fieldOverflow
  deriving Repr, DecidableEq

/-- Two's-complement encoding of an `i8` field value into a wire byte. -/
def i8encode (x : Int) : Nat := (x % 256).toNat

/-- Two's-complement decoding of a wire byte into an `i8` field value. -/
def i8decode (b : Nat) : Int := if b < 128 then (b : Int) else (b : Int) - 256

lemma i8encode_lt (x : Int) : i8encode x < 256 := by
  simp only [i8encode]; omega

lemma i8decode_encode (x : Int) (h1 : -128 ≤ x) (h2 : x ≤ 127) :
    i8decode (i8encode x) = x := by
  simp only [i8encode, i8decode]
  split_ifs <;> omega

/-- The `KeyboardLedsReport` packed struct (src/device/keyboard.rs lines 108-122):
one byte, `lsb0` bit numbering, bit 0 `num_lock` … bit 4 `kana`. -/
structure KeyboardLedsReport where
  num_lock : Bool
  caps_lock : Bool
  scroll_lock : Bool
  compose : Bool
  kana : Bool
  deriving Repr, DecidableEq

/-- Modelled from the spec: the packed-struct encode of `KeyboardLedsReport` — five
boolean 1-bit fields can never exceed their width, so encoding is total: the single
wire byte with bit 0 = `num_lock` … bit 4 = `kana`, padding bits zero. -/
def KeyboardLedsReport.pack (r : KeyboardLedsReport) : List Nat :=
  [(cond r.num_lock 1 0) + 2 * (cond r.caps_lock 1 0) + 4 * (cond r.scroll_lock 1 0)
    + 8 * (cond r.compose 1 0) + 16 * (cond r.kana 1 0)]

/-- Modelled from the spec: the packed-struct decode of `KeyboardLedsReport` — fails
iff the buffer is not exactly one byte; each boolean is read from its bit. -/
def KeyboardLedsReport.unpack (bs : List Nat) : Option KeyboardLedsReport :=
  match bs with
  | [b] =>
      if b < 256 then
        some ⟨b.testBit 0, b.testBit 1, b.testBit 2, b.testBit 3, b.testBit 4⟩
      else none
  | _ => none

/-- The `BootMouseReport` packed struct (src/device/mouse.rs lines 53-62):
`buttons: u8`, `x: i8`, `y: i8`, three bytes, lsb endian. -/
structure BootMouseReport where
  buttons : Nat
  x : Int
  y : Int
  deriving Repr, DecidableEq

/-- Modelled from the spec: the packed-struct encode of `BootMouseReport`; fields are
modelled as unbounded integers and encoding fails iff a field value exceeds its
declared width (8 bits for `buttons`, signed 8 bits for `x` and `y`). -/
def BootMouseReport.pack (r : BootMouseReport) : Except PackingError (List Nat) :=
  if r.buttons < 256 ∧ -128 ≤ r.x ∧ r.x ≤ 127 ∧ -128 ≤ r.y ∧ r.y ≤ 127 then
    .ok [r.buttons, i8encode r.x, i8encode r.y]
  else .error .fieldOverflow

/-- Modelled from the spec: the packed-struct decode of `BootMouseReport` — fails iff
the buffer is not exactly three bytes. -/
def BootMouseReport.unpack (bs : List Nat) : Option BootMouseReport :=
  match bs with
  | [b0, b1, b2] =>
      if b0 < 256 ∧ b1 < 256 ∧ b2 < 256 then some ⟨b0, i8decode b1, i8decode b2⟩
      else none
  | _ => none

/-- The `WheelMouseReport` packed struct (src/device/mouse.rs lines 130-143):
`buttons: u8`, `x: i8`, `y: i8`, `vertical_wheel: i8`, `horizontal_wheel: i8`. -/
structure WheelMouseReport where
  buttons : Nat
  x : Int
  y : Int
  vertical_wheel : Int
  horizontal_wheel : Int
  deriving Repr, DecidableEq

/-- Modelled from the spec: the packed-struct encode of `WheelMouseReport`, with the
same per-field width checks as `BootMouseReport.pack`. -/
def WheelMouseReport.pack (r : WheelMouseReport) : Except PackingError (List Nat) :=
  if r.buttons < 256 ∧ -128 ≤ r.x ∧ r.x ≤ 127 ∧ -128 ≤ r.y ∧ r.y ≤ 127 ∧
      -128 ≤ r.vertical_wheel ∧ r.vertical_wheel ≤ 127 ∧
      -128 ≤ r.horizontal_wheel ∧ r.horizontal_wheel ≤ 127 then
    .ok [r.buttons, i8encode r.x, i8encode r.y, i8encode r.vertical_wheel,
      i8encode r.horizontal_wheel]
  else .error .fieldOverflow

/-- The `MultipleConsumerReport` packed struct (src/device/consumer.rs lines 32-38):
four 16-bit consumer usage codes, little-endian, 8 bytes. -/
structure MultipleConsumerReport where
  codes : List Nat
  deriving Repr, DecidableEq

/-- Modelled from the spec: the packed-struct encode of `MultipleConsumerReport`;
encoding fails iff a code exceeds its declared 16-bit width. -/
def MultipleConsumerReport.pack (r : MultipleConsumerReport) :
    Except PackingError (List Nat) :=
  if r.codes.length = 4 ∧ ∀ c ∈ r.codes, c < 65536 then
    .ok (r.codes.foldr (fun c acc => c % 256 :: c / 256 :: acc) [])
  else .error .fieldOverflow

/-- The `FixedFunctionReport` packed struct (src/device/consumer.rs lines 128-145):
seven boolean 1-bit fields in one byte. -/
structure FixedFunctionReport where
  next : Bool
  previous : Bool
  stop : Bool
  play_pause : Bool
  mute : Bool
  volume_increment : Bool
  volume_decrement : Bool
  deriving Repr, DecidableEq

/-- Modelled from the spec: the packed-struct encode of `FixedFunctionReport` —
boolean 1-bit fields can never exceed their width, so encoding always succeeds. -/
def FixedFunctionReport.pack (r : FixedFunctionReport) : Except PackingError (List Nat) :=
  .ok [(cond r.next 1 0) + 2 * (cond r.previous 1 0) + 4 * (cond r.stop 1 0)
    + 8 * (cond r.play_pause 1 0) + 16 * (cond r.mute 1 0)
    + 32 * (cond r.volume_increment 1 0) + 64 * (cond r.volume_decrement 1 0)]

/-! ### Claim C9 -/

/-- Claim C9: for every valid report value of the packed report types with both encode
and decode — `KeyboardLedsReport` (unconditionally: its boolean fields always fit)
and `BootMouseReport` (whenever encode succeeds, i.e. each field fits its declared
width) — decoding the encoded bytes yields the same report back, byte-for-bit. -/
theorem packed_report_roundtrip :
    (∀ r : KeyboardLedsReport,
        KeyboardLedsReport.unpack (KeyboardLedsReport.pack r) = some r) ∧
    (∀ (r : BootMouseReport) (bs : List Nat),
        r.pack = .ok bs → BootMouseReport.unpack bs = some r) := by
  constructor
  · intro r
    rcases r with ⟨n, c, s, co, ka⟩
    cases n <;> cases c <;> cases s <;> cases co <;> cases ka <;> rfl
  · intro r bs hpack
    rcases r with ⟨b, x, y⟩
    simp only [BootMouseReport.pack] at hpack
    split_ifs at hpack with hcond
    · obtain ⟨h1, h2, h3, h4, h5⟩ := hcond
      cases hpack
      simp only [BootMouseReport.unpack]
      rw [if_pos ⟨h1, i8encode_lt x, i8encode_lt y⟩,
        i8decode_encode x h2 h3, i8decode_encode y h4 h5]

/-- Witness for `packed_report_roundtrip` at the concrete report
`{buttons = 3, x = 120, y = -99}` (the values of the repository's
`boot_mouse_report_ser` test). -/
theorem packed_report_roundtrip_witness :
    BootMouseReport.pack ⟨3, 120, -99⟩ = Except.ok [3, 120, 157] ∧
    BootMouseReport.unpack [3, 120, 157] = some ⟨3, 120, -99⟩ :=
  ⟨rfl, packed_report_roundtrip.2 ⟨3, 120, -99⟩ [3, 120, 157] rfl⟩

/-! ### Claim C7: typed write_report error mapping -/

/-- Modelled from the spec: `usb_device::UsbError`, the transport error type of the
external USB stack (only the variants the embedded code distinguishes). -/
inductive UsbError
  | WouldBlock
  | ParseError
  | BufferOverflow
  deriving Repr, DecidableEq

/-- Modelled from the spec: `UsbHidError` (crate root, not among the embedded
files) — the error taxonomy of §7: transport errors, serialization errors. -/
inductive UsbHidError
  | WouldBlock
  | Duplicate
  | SerializationError
  | Usb (e : UsbError)
  deriving Repr, DecidableEq

/-- Modelled from the spec: `UsbHidError::from(UsbError)` — transport errors are
propagated unchanged (`WouldBlock` kept as the non-blocking busy signal). -/
def UsbHidError.fromUsb : UsbError → UsbHidError
  | .WouldBlock => .WouldBlock
  | e => .Usb e

/-- Embeds `BootMouseInterface::write_report` (src/device/mouse.rs lines 184-193): pack the
report, mapping a packing error to `UsbHidError::SerializationError`, then forward
the bytes to the inner raw interface's `write_report` (modelled from the spec as the
endpoint-write outcome `ep`), converting transport errors via `UsbHidError::from`. -/
def bootMouseWriteReport (ep : List Nat → Except UsbError Nat)
    (r : BootMouseReport) : Except UsbHidError Unit :=
  match r.pack with
  | .error _ => .error .SerializationError
  | .ok data =>
      match ep data with
      | .error e => .error (UsbHidError.fromUsb e)
      | .ok _ => .ok ()

/-- Embeds `WheelMouseInterface::write_report` (src/device/mouse.rs lines 238-247): same
shape as `bootMouseWriteReport`. -/
def wheelMouseWriteReport (ep : List Nat → Except UsbError Nat)
    (r : WheelMouseReport) : Except UsbHidError Unit :=
  match r.pack with
  | .error _ => .error .SerializationError
  | .ok data =>
      match ep data with
      | .error e => .error (UsbHidError.fromUsb e)
      | .ok _ => .ok ()

/-- Embeds `ConsumerControlInterface::write_report` (src/device/consumer.rs lines 152-158):
pack the report, mapping a packing error to `UsbError::ParseError` (not a
serialization error!), then forward to the inner raw interface. -/
def consumerWriteReport (ep : List Nat → Except UsbError Nat)
    (r : MultipleConsumerReport) : Except UsbError Nat :=
  match r.pack with
  | .error _ => .error .ParseError
  | .ok data => ep data

/-- Embeds `ConsumerControlFixedInterface::write_report` (src/device/consumer.rs lines
205-211): identical error mapping to `consumerWriteReport`. -/
def consumerFixedWriteReport (ep : List Nat → Except UsbError Nat)
    (r : FixedFunctionReport) : Except UsbError Nat :=
  match r.pack with
  | .error _ => .error .ParseError
  | .ok data => ep data

/-- An endpoint write that always succeeds, used to exercise the write paths. -/
def epAlwaysOk : List Nat → Except UsbError Nat := fun data => .ok data.length

/-- Claim C7, counterexample: when encoding a `MultipleConsumerReport` fails because a
code exceeds its declared 16-bit width, `ConsumerControlInterface::write_report`
surfaces `UsbError::ParseError` — not a `SerializationError` (its return type
`usb_device::Result` cannot even carry `UsbHidError::SerializationError`). -/
theorem consumer_write_report_parse_error_counterexample :
    MultipleConsumerReport.pack ⟨[70000, 0, 0, 0]⟩ =
      Except.error PackingError.fieldOverflow ∧
    consumerWriteReport epAlwaysOk ⟨[70000, 0, 0, 0]⟩ =
      Except.error UsbError.ParseError := ⟨rfl, rfl⟩

/-- Claim C7, amended: if encoding fails because a field value exceeds its declared
bit width, the boot-mouse and wheel-mouse `write_report` surface
`UsbHidError::SerializationError`, but the consumer-control multiple-code
`write_report` surfaces `UsbError::ParseError`; the consumer-control fixed-function
report's encode can never fail (its seven boolean fields always fit), and its
`write_report` uses the same `UsbError::ParseError` mapping. -/
theorem write_report_encoding_error_mapping :
    (∀ (ep : List Nat → Except UsbError Nat) (r : BootMouseReport) (e : PackingError),
        r.pack = .error e →
        bootMouseWriteReport ep r = .error .SerializationError) ∧
    (∀ (ep : List Nat → Except UsbError Nat) (r : WheelMouseReport) (e : PackingError),
        r.pack = .error e →
        wheelMouseWriteReport ep r = .error .SerializationError) ∧
    (∀ (ep : List Nat → Except UsbError Nat) (r : MultipleConsumerReport)
        (e : PackingError), r.pack = .error e →
        consumerWriteReport ep r = .error UsbError.ParseError) ∧
    (∀ r : FixedFunctionReport, ∃ bs, FixedFunctionReport.pack r = .ok bs) := by
  refine ⟨?_, ?_, ?_, ?_⟩
  · intro ep r e hpack
    simp [bootMouseWriteReport, hpack]
  · intro ep r e hpack
    simp [wheelMouseWriteReport, hpack]
  · intro ep r e hpack
    simp [consumerWriteReport, hpack]
  · intro r
    exact ⟨_, rfl⟩

/-- Witness for `write_report_encoding_error_mapping` at concrete overflowing
reports (`buttons = 256` exceeds 8 bits, code `70000` exceeds 16 bits). -/
theorem write_report_encoding_error_mapping_witness :
    bootMouseWriteReport epAlwaysOk ⟨256, 0, 0⟩ =
      Except.error UsbHidError.SerializationError ∧
    wheelMouseWriteReport epAlwaysOk ⟨256, 0, 0, 0, 0⟩ =
      Except.error UsbHidError.SerializationError ∧
    consumerWriteReport epAlwaysOk ⟨[70000, 0, 0, 0]⟩ =
      Except.error UsbError.ParseError :=
  ⟨write_report_encoding_error_mapping.1 epAlwaysOk ⟨256, 0, 0⟩
      PackingError.fieldOverflow rfl,
    write_report_encoding_error_mapping.2.1 epAlwaysOk ⟨256, 0, 0, 0, 0⟩
      PackingError.fieldOverflow rfl,
    write_report_encoding_error_mapping.2.2.1 epAlwaysOk ⟨[70000, 0, 0, 0]⟩
      PackingError.fieldOverflow rfl⟩

/-! ### Control dispatcher (src/hid_class/mod.rs lines 182-371)

The dispatcher itself is embedded from the source; the per-interface state and its
leaf operations (`set_idle`, `get_idle`, `set_protocol`, `get_protocol`,
`set_report`, `get_report`, `get_report_ack`, `hid_descriptor_body`) live in
`src/interface/raw.rs`, which is not among the embedded files, and are modelled
from the spec (§3 data model, §4.2 interface operations). -/

/-- Embeds `HidProtocol` (hid_class/descriptor.rs, not among the embedded files).
Modelled from the spec: protocol mode `{Boot, Report}`, wire codes 0 and 1. -/
inductive HidProtocol
  | Boot
  | Report
  deriving Repr, DecidableEq

/-- The byte sent for `GetProtocol` (`protocol as u8`). -/
def HidProtocol.toByte : HidProtocol → Nat
  | .Boot => 0
  | .Report => 1

/-- Embeds `usb_device::control::RequestType` (external USB stack). -/
inductive RequestType
  | Standard
  | Class
  | Vendor
  | Reserved
  deriving Repr, DecidableEq

/-- Embeds `usb_device::control::Recipient` (external USB stack). -/
inductive Recipient
  | Device
  | Interface
  | Endpoint
  | Other
  deriving Repr, DecidableEq

/-- Embeds `usb_device::control::Request`: the setup packet fields read by the dispatcher
(`value`, `index` and `length` are 16-bit on the wire). -/
structure Request where
  requestType : RequestType
  recipient : Recipient
  request : Nat
  value : Nat
  index : Nat
  length : Nat
  deriving Repr, DecidableEq

/-- Embeds `(value & 0xFF) as u8`. -/
def loByte (v : Nat) : Nat := v % 256

/-- Embeds `(value >> 8) as u8`. -/
def hiByte (v : Nat) : Nat := (v / 256) % 256

/-- Embeds `u8::try_from(index)`: succeeds iff the 16-bit value fits in a byte. -/
def u8TryFrom (n : Nat) : Option Nat := if n < 256 then some n else none

/-- Modelled from the spec: the state of one raw HID interface (§3): the mutable
idle-rate table (report id → idle rate in 4 ms units), the mutable protocol mode,
the immutable report descriptor and 7-byte HID-descriptor body, plus observation
points for the control callbacks: the outcome `get_report` will produce, a counter
of `get_report_ack` invocations, and the log of payloads handed to `set_report`. -/
structure ModelInterface where
  idleTable : Nat → Nat
  protocol : HidProtocol
  reportDescriptor : List Nat
  hidDescriptorBody : Fin 7 → Nat
  getReportResult : Except Unit (List Nat)
  ackCount : Nat
  setReportLog : List (List Nat)

/-- Modelled from the spec: `set_idle` updates the idle-table entry for the given
report id. -/
def ModelInterface.setIdle (i : ModelInterface) (reportId val : Nat) : ModelInterface :=
  { i with idleTable := fun j => if j = reportId then val else i.idleTable j }

/-- Modelled from the spec: `get_idle` returns the idle-table entry for the given
report id. -/
def ModelInterface.getIdle (i : ModelInterface) (reportId : Nat) : Nat :=
  i.idleTable reportId

/-- Modelled from the spec: `set_protocol` stores the protocol mode. -/
def ModelInterface.setProtocol (i : ModelInterface) (p : HidProtocol) : ModelInterface :=
  { i with protocol := p }

/-- Modelled from the spec: `set_report` exchanges the data-stage payload with the
interface; the payload received is recorded. -/
def ModelInterface.setReport (i : ModelInterface) (data : List Nat) : ModelInterface :=
  { i with setReportLog := data :: i.setReportLog }

/-- Modelled from the spec: `get_report_ack` is a hook invoked after a successful
GetReport transfer; it always succeeds, so the dispatcher's `.unwrap()` on it never
panics.  The model counts invocations. -/
def ModelInterface.getReportAck (i : ModelInterface) : ModelInterface :=
  { i with ackCount := i.ackCount + 1 }

/-- Result of a control transfer as seen by the host: either accepted with response
bytes (an OUT transfer acknowledges with no data), or left unanswered, which the
USB stack turns into a stall. -/
inductive XferOutcome
  | accepted (data : List Nat)
  | unanswered
  deriving Repr, DecidableEq

/-- Embeds `UsbHidClass::control_out` (src/hid_class/mod.rs lines 182-262): only Class
requests with Interface recipient are handled; the interface is resolved via
`u8::try_from(request.index)` and `get_id_mut`; `SetReport` forwards the payload
and accepts, `SetIdle` updates the idle table from the value's bytes and accepts,
`SetProtocol` accepts codes 0 (Boot) and 1 (Report) and leaves anything else
unanswered; any other request is left unanswered.  The result is `none` only if
the Rust code would panic (it never does). -/
def controlOut (req : Request) (data : List Nat) (s : List ModelInterface) :
    Option (List ModelInterface × XferOutcome) :=
  if ¬(req.requestType = RequestType.Class ∧ req.recipient = Recipient.Interface) then
    some (s, .unanswered)
  else
    match u8TryFrom req.index with
    | none => some (s, .unanswered)
    | some id =>
      match s.get? id with
      | none => some (s, .unanswered)
      | some iface =>
        if req.request = 0x09 then
          some (s.set id (iface.setReport data), .accepted [])
        else if req.request = 0x0A then
          some (s.set id (iface.setIdle (loByte req.value) (hiByte req.value)),
            .accepted [])
        else if req.request = 0x0B then
          if loByte req.value = 0 then
            some (s.set id (iface.setProtocol .Boot), .accepted [])
          else if loByte req.value = 1 then
            some (s.set id (iface.setProtocol .Report), .accepted [])
          else some (s, .unanswered)
        else some (s, .unanswered)

/-- The 9-byte HID descriptor synthesized by `UsbHidClass::get_descriptor`:
`buffer[0] = 9`, `buffer[1] = DescriptorType::Hid`, `buffer[2..9]` the interface's
`hid_descriptor_body`. -/
def hidDescriptorBytes (iface : ModelInterface) : List Nat :=
  9 :: 0x21 :: List.ofFn iface.hidDescriptorBody

/-- Embeds `UsbHidClass::get_descriptor` (src/hid_class/mod.rs lines 125-159): dispatch on
the high byte of the request value — `Report` (0x22) returns the raw report
descriptor, `Hid` (0x21) the synthesized 9-byte descriptor, anything else is left
unanswered. -/
def getDescriptor (req : Request) (iface : ModelInterface) : XferOutcome :=
  if hiByte req.value = 0x22 then .accepted iface.reportDescriptor
  else if hiByte req.value = 0x21 then .accepted (hidDescriptorBytes iface)
  else .unanswered

/-- Embeds `UsbHidClass::control_in` (src/hid_class/mod.rs lines 264-371): only Interface
recipients are handled; Standard `GET_DESCRIPTOR` (6) goes to `getDescriptor`;
Class `GetReport` copies the interface's report into the 64-byte buffer and, when
it succeeds, accepts exactly the produced bytes and then invokes `get_report_ack`;
`GetIdle`/`GetProtocol` answer with one byte; everything else is left unanswered.
The result is `none` only if the Rust code would panic (it never does). -/
def controlIn (req : Request) (s : List ModelInterface) :
    Option (List ModelInterface × XferOutcome) :=
  if ¬(req.recipient = Recipient.Interface) then some (s, .unanswered)
  else
    match u8TryFrom req.index with
    | none => some (s, .unanswered)
    | some id =>
      match req.requestType with
      | .Standard =>
        match s.get? id with
        | none => some (s, .unanswered)
        | some iface =>
          if req.request = 0x06 then some (s, getDescriptor req iface)
          else some (s, .unanswered)
      | .Class =>
        match s.get? id with
        | none => some (s, .unanswered)
        | some iface =>
          if req.request = 0x01 then
            match iface.getReportResult with
            | .ok bytes =>
                some (s.set id iface.getReportAck, .accepted (bytes.take 64))
            | .error _ => some (s, .unanswered)
          else if req.request = 0x02 then
            some (s, .accepted [iface.getIdle (loByte req.value)])
          else if req.request = 0x03 then
            some (s, .accepted [iface.protocol.toByte])
          else some (s, .unanswered)
      | _ => some (s, .unanswered)

lemma loByte_loByte (v : Nat) : loByte (loByte v) = loByte v := by
  simp only [loByte]; omega

lemma get?_some_lt {s : List ModelInterface} {id : Nat} {iface : ModelInterface}
    (h : s.get? id = some iface) : id < s.length := by
  by_contra hc
  rw [List.get?_eq_getElem?, List.getElem?_eq_none (by omega)] at h
  cases h

/-- A concrete interface used to exercise the dispatcher. -/
def sampleInterface : ModelInterface :=
  { idleTable := fun _ => 125, protocol := HidProtocol.Report,
    reportDescriptor := [0x05, 0x01, 0x09, 0x06], hidDescriptorBody := fun _ => 0,
    getReportResult := Except.ok [1, 2, 3], ackCount := 0, setReportLog := [] }

/-- A concrete interface whose `get_report` fails. -/
def sampleFailInterface : ModelInterface :=
  { sampleInterface with getReportResult := Except.error () }

/-! ### Claim C3 -/

/-- Claim C3: for every `control_out` `SetProtocol` request routed to an existing
interface: low byte 0 sets the protocol to `Boot` and accepts; low byte 1 sets it
to `Report` and accepts; every other low byte leaves the transfer unanswered
(host-visible stall) and the interface list — in particular the stored protocol —
unchanged. -/
theorem set_protocol_transitions (req : Request) (data : List Nat)
    (s : List ModelInterface) (id : Nat) (iface : ModelInterface)
    (hclass : req.requestType = RequestType.Class)
    (hrecip : req.recipient = Recipient.Interface)
    (hreq : req.request = 0x0B)
    (hidx : req.index = id) (hlt : id < 256)
    (hget : s.get? id = some iface) :
    (loByte req.value = 0 →
      controlOut req data s =
        some (s.set id (iface.setProtocol HidProtocol.Boot), XferOutcome.accepted [])) ∧
    (loByte req.value = 1 →
      controlOut req data s =
        some (s.set id (iface.setProtocol HidProtocol.Report), XferOutcome.accepted [])) ∧
    (loByte req.value ≠ 0 → loByte req.value ≠ 1 →
      controlOut req data s = some (s, XferOutcome.unanswered)) := by
  have hu8 : u8TryFrom id = some id := by simp [u8TryFrom, hlt]
  have hgetE : s[id]? = some iface := by rw [← List.get?_eq_getElem?]; exact hget
  refine ⟨fun hv => ?_, fun hv => ?_, fun hv0 hv1 => ?_⟩ <;>
    simp [controlOut, hclass, hrecip, hidx, hu8, hgetE, hreq, *]

/-- Witness for `set_protocol_transitions`: an unsupported `SetProtocol` value (2)
leaves the interface list unchanged and the transfer unanswered. -/
theorem set_protocol_transitions_witness :
    loByte 2 ≠ 0 ∧ loByte 2 ≠ 1 ∧
    ([sampleInterface].get? 0 = some sampleInterface) ∧
    controlOut ⟨RequestType.Class, Recipient.Interface, 0x0B, 2, 0, 0⟩ []
        [sampleInterface] = some ([sampleInterface], XferOutcome.unanswered) :=
  ⟨by decide, by decide, rfl,
    (set_protocol_transitions ⟨RequestType.Class, Recipient.Interface, 0x0B, 2, 0, 0⟩
        [] [sampleInterface] 0 sampleInterface rfl rfl rfl rfl (by decide) rfl).2.2
      (by decide) (by decide)⟩

/-- A `GetIdle` class request on an existing interface answers with the single-byte
idle rate of the requested report id. -/
lemma controlIn_getIdle (req : Request) (s : List ModelInterface) (id : Nat)
    (iface : ModelInterface)
    (hclass : req.requestType = RequestType.Class)
    (hrecip : req.recipient = Recipient.Interface)
    (hreq : req.request = 0x02)
    (hidx : req.index = id) (hlt : id < 256)
    (hget : s.get? id = some iface) :
    controlIn req s =
      some (s, XferOutcome.accepted [iface.idleTable (loByte req.value)]) := by
  have hu8 : u8TryFrom id = some id := by simp [u8TryFrom, hlt]
  have hgetE : s[id]? = some iface := by rw [← List.get?_eq_getElem?]; exact hget
  simp [controlIn, ModelInterface.getIdle, hclass, hrecip, hidx, hu8, hgetE, hreq]

/-! ### Claim C4 -/

/-- Claim C4: `control_out` ignores transfers that are not Class-type with Interface
recipient, transfers whose 16-bit index is no byte, and transfers whose index does
not resolve to a registered interface — in each case the interface list is
untouched and no fault occurs; and a `SetIdle` addressed to existing interface `id`
(report id = value low byte, idle rate = value high byte) updates only that
interface's idle-table entry for that report id, leaving every other interface and
every other entry unchanged, and a subsequent `GetIdle` on the same interface and
report id answers with exactly the idle rate that was set. -/
theorem set_idle_routing (req : Request) (data : List Nat) (s : List ModelInterface) :
    (¬(req.requestType = RequestType.Class ∧ req.recipient = Recipient.Interface) →
      controlOut req data s = some (s, XferOutcome.unanswered)) ∧
    (u8TryFrom req.index = none →
      controlOut req data s = some (s, XferOutcome.unanswered)) ∧
    (∀ id, u8TryFrom req.index = some id → s.get? id = none →
      controlOut req data s = some (s, XferOutcome.unanswered)) ∧
    (∀ id iface, req.requestType = RequestType.Class →
      req.recipient = Recipient.Interface → req.request = 0x0A →
      req.index = id → id < 256 → s.get? id = some iface →
      controlOut req data s =
        some (s.set id (iface.setIdle (loByte req.value) (hiByte req.value)),
          XferOutcome.accepted []) ∧
      (s.set id (iface.setIdle (loByte req.value) (hiByte req.value))).get? id =
        some (iface.setIdle (loByte req.value) (hiByte req.value)) ∧
      (∀ j, j ≠ id →
        (s.set id (iface.setIdle (loByte req.value) (hiByte req.value))).get? j =
          s.get? j) ∧
      (iface.setIdle (loByte req.value) (hiByte req.value)).idleTable
          (loByte req.value) = hiByte req.value ∧
      (∀ rid, rid ≠ loByte req.value →
        (iface.setIdle (loByte req.value) (hiByte req.value)).idleTable rid =
          iface.idleTable rid) ∧
      controlIn ⟨RequestType.Class, Recipient.Interface, 0x02, loByte req.value,
          req.index, 1⟩
          (s.set id (iface.setIdle (loByte req.value) (hiByte req.value))) =
        some (s.set id (iface.setIdle (loByte req.value) (hiByte req.value)),
          XferOutcome.accepted [hiByte req.value])) := by
  refine ⟨fun hmal => ?_, fun hnone => ?_, fun id hu8 hnone => ?_,
    fun id iface hclass hrecip hreq hidx hlt hget => ?_⟩
  · unfold controlOut
    rw [if_pos hmal]
  · unfold controlOut
    by_cases hmal : ¬(req.requestType = RequestType.Class ∧
        req.recipient = Recipient.Interface)
    · rw [if_pos hmal]
    · rw [if_neg hmal, hnone]
  · unfold controlOut
    by_cases hmal : ¬(req.requestType = RequestType.Class ∧
        req.recipient = Recipient.Interface)
    · rw [if_pos hmal]
    · have hnoneE : s[id]? = none := by rw [← List.get?_eq_getElem?]; exact hnone
      rw [if_neg hmal, hu8]
      simp [hnoneE]
  · have hu8 : u8TryFrom id = some id := by simp [u8TryFrom, hlt]
    have hgetE : s[id]? = some iface := by rw [← List.get?_eq_getElem?]; exact hget
    have hslen : id < s.length := get?_some_lt hget
    have hout : controlOut req data s =
        some (s.set id (iface.setIdle (loByte req.value) (hiByte req.value)),
          XferOutcome.accepted []) := by
      simp [controlOut, hclass, hrecip, hidx, hu8, hgetE, hreq]
    have hgetsetE : (s.set id (iface.setIdle (loByte req.value) (hiByte req.value)))[id]? =
        some (iface.setIdle (loByte req.value) (hiByte req.value)) := by
      rw [List.getElem?_set_eq_of_lt _ (by simpa using hslen)]
    have hgetset : (s.set id (iface.setIdle (loByte req.value) (hiByte req.value))).get?
        id = some (iface.setIdle (loByte req.value) (hiByte req.value)) := by
      rw [List.get?_eq_getElem?]; exact hgetsetE
    refine ⟨hout, hgetset, fun j hj => ?_, ?_, fun rid hr => ?_, ?_⟩
    · rw [List.get?_eq_getElem?, List.get?_eq_getElem?, List.getElem?_set_ne (by omega)]
    · simp [ModelInterface.setIdle]
    · simp [ModelInterface.setIdle, if_neg hr]
    · rw [controlIn_getIdle ⟨RequestType.Class, Recipient.Interface, 0x02,
        loByte req.value, req.index, 1⟩
        (s.set id (iface.setIdle (loByte req.value) (hiByte req.value))) id
        (iface.setIdle (loByte req.value) (hiByte req.value))
        rfl rfl rfl hidx hlt hgetset]
      simp [ModelInterface.setIdle, loByte_loByte]

/-- Witness for `set_idle_routing`: `SetIdle` with value `0x1403` (report id 3, rate
20) on interface 0, followed by `GetIdle` for report id 3 answering `[20]`. -/
theorem set_idle_routing_witness :
    ([sampleInterface].get? 0 = some sampleInterface) ∧
    controlOut ⟨RequestType.Class, Recipient.Interface, 0x0A, 0x1403, 0, 0⟩ []
        [sampleInterface] =
      some ([sampleInterface.setIdle 3 20], XferOutcome.accepted []) ∧
    controlIn ⟨RequestType.Class, Recipient.Interface, 0x02, 3, 0, 1⟩
        [sampleInterface.setIdle 3 20] =
      some ([sampleInterface.setIdle 3 20], XferOutcome.accepted [20]) := by
  have h := (set_idle_routing ⟨RequestType.Class, Recipient.Interface, 0x0A, 0x1403, 0, 0⟩
      [] [sampleInterface]).2.2.2 0 sampleInterface rfl rfl rfl rfl (by decide) rfl
  exact ⟨rfl, h.1, h.2.2.2.2.2⟩

/-! ### Claim C5 -/

/-- Claim C5: for every host control request — any request type, request code, value,
index, length, payload and interface-list state — `control_out` and `control_in`
produce a result (`none` in this embedding marks a panic/abort, and is never
produced): unrecognized interface ids, unsupported sub-requests and malformed
recipients fall through to branches that leave the transfer unanswered rather than
crashing. -/
theorem control_dispatch_never_panics (req : Request) (data : List Nat)
    (s : List ModelInterface) :
    (controlOut req data s).isSome ∧ (controlIn req s).isSome := by
  constructor
  · unfold controlOut
    repeat' split
    all_goals rfl
  · unfold controlIn
    repeat' split
    all_goals rfl

/-! ### Claim C6 -/

/-- Claim C6: for every `control_in` `GetReport` class request to an existing
interface: when the interface's `get_report` succeeds with `n ≤ 64` bytes, exactly
those bytes are accepted — whatever length the host requested, the mismatch is not
fatal — and `get_report_ack` is invoked exactly once (the ack counter increments);
when `get_report` fails, the transfer is left unanswered, the interface list is
untouched and `get_report_ack` is not invoked. -/
theorem get_report_returns_exact_bytes (req : Request) (s : List ModelInterface)
    (id : Nat) (iface : ModelInterface)
    (hclass : req.requestType = RequestType.Class)
    (hrecip : req.recipient = Recipient.Interface)
    (hreq : req.request = 0x01)
    (hidx : req.index = id) (hlt : id < 256)
    (hget : s.get? id = some iface) :
    (∀ bytes, iface.getReportResult = Except.ok bytes → bytes.length ≤ 64 →
      controlIn req s =
        some (s.set id iface.getReportAck, XferOutcome.accepted bytes) ∧
      iface.getReportAck.ackCount = iface.ackCount + 1) ∧
    (∀ e, iface.getReportResult = Except.error e →
      controlIn req s = some (s, XferOutcome.unanswered)) := by
  have hu8 : u8TryFrom id = some id := by simp [u8TryFrom, hlt]
  have hgetE : s[id]? = some iface := by rw [← List.get?_eq_getElem?]; exact hget
  constructor
  · intro bytes hrep hlen
    refine ⟨?_, rfl⟩
    simp [controlIn, hclass, hrecip, hidx, hu8, hgetE, hreq, hrep,
      List.take_of_length_le hlen]
  · intro e hrep
    simp [controlIn, hclass, hrecip, hidx, hu8, hgetE, hreq, hrep]

/-- Witness for `get_report_returns_exact_bytes`: a 3-byte report is returned as-is
with the ack counter advanced, and a failing `get_report` stalls on a second
interface. -/
theorem get_report_returns_exact_bytes_witness :
    ([sampleInterface].get? 0 = some sampleInterface) ∧
    sampleInterface.getReportResult = Except.ok [1, 2, 3] ∧
    controlIn ⟨RequestType.Class, Recipient.Interface, 0x01, 0, 0, 8⟩
        [sampleInterface] =
      some ([sampleInterface.getReportAck], XferOutcome.accepted [1, 2, 3]) ∧
    controlIn ⟨RequestType.Class, Recipient.Interface, 0x01, 0, 0, 8⟩
        [sampleFailInterface] =
      some ([sampleFailInterface], XferOutcome.unanswered) :=
  ⟨rfl, rfl,
    ((get_report_returns_exact_bytes
        ⟨RequestType.Class, Recipient.Interface, 0x01, 0, 0, 8⟩
        [sampleInterface] 0 sampleInterface rfl rfl rfl rfl (by decide) rfl).1
      [1, 2, 3] rfl (by decide)).1,
    (get_report_returns_exact_bytes
        ⟨RequestType.Class, Recipient.Interface, 0x01, 0, 0, 8⟩
        [sampleFailInterface] 0 sampleFailInterface rfl rfl rfl rfl (by decide) rfl).2
      () rfl⟩

/-! ### Claim C8 -/

/-- Claim C8: for every `control_in` standard `GET_DESCRIPTOR` (0x06) request with
Interface recipient addressed to an existing interface: value high byte `Report`
(0x22) answers with exactly the interface's raw report-descriptor bytes; value high
byte `Hid` (0x21) answers with exactly 9 bytes — first byte 9, second byte the
`Hid` descriptor tag 0x21, remaining 7 bytes the interface's
`hid_descriptor_body` —; any other descriptor type leaves the transfer
unanswered. -/
theorem get_descriptor_dispatch (req : Request) (s : List ModelInterface)
    (id : Nat) (iface : ModelInterface)
    (hstd : req.requestType = RequestType.Standard)
    (hrecip : req.recipient = Recipient.Interface)
    (hreq : req.request = 0x06)
    (hidx : req.index = id) (hlt : id < 256)
    (hget : s.get? id = some iface) :
    (hiByte req.value = 0x22 →
      controlIn req s = some (s, XferOutcome.accepted iface.reportDescriptor)) ∧
    (hiByte req.value = 0x21 →
      controlIn req s = some (s, XferOutcome.accepted (hidDescriptorBytes iface)) ∧
      hidDescriptorBytes iface = 9 :: 0x21 :: List.ofFn iface.hidDescriptorBody ∧
      (hidDescriptorBytes iface).length = 9) ∧
    (hiByte req.value ≠ 0x22 → hiByte req.value ≠ 0x21 →
      controlIn req s = some (s, XferOutcome.unanswered)) := by
  have hu8 : u8TryFrom id = some id := by simp [u8TryFrom, hlt]
  have hgetE : s[id]? = some iface := by rw [← List.get?_eq_getElem?]; exact hget
  refine ⟨fun hv => ?_, fun hv => ⟨?_, rfl, by simp [hidDescriptorBytes]⟩,
    fun hv0 hv1 => ?_⟩ <;>
    simp [controlIn, getDescriptor, hstd, hrecip, hidx, hu8, hgetE, hreq, *]

/-- Witness for `get_descriptor_dispatch`: requesting the Report descriptor
(value `0x2200`) returns the interface's report-descriptor bytes. -/
theorem get_descriptor_dispatch_witness :
    hiByte 0x2200 = 0x22 ∧
    ([sampleInterface].get? 0 = some sampleInterface) ∧
    controlIn ⟨RequestType.Standard, Recipient.Interface, 0x06, 0x2200, 0, 0x40⟩
        [sampleInterface] =
      some ([sampleInterface], XferOutcome.accepted [0x05, 0x01, 0x09, 0x06]) :=
  ⟨by decide, rfl,
    (get_descriptor_dispatch
        ⟨RequestType.Standard, Recipient.Interface, 0x06, 0x2200, 0, 0x40⟩
        [sampleInterface] 0 sampleInterface rfl rfl rfl rfl (by decide) rfl).1
      (by decide)⟩

end HidSpec
